import Mathlib

/-!
Shallow embedding of the serial-delivery core of `vibemon.py`
(`src/docs/claude/hooks/vibemon.py`): the serial port resolver, the
debounce coordinator `send_serial`, the raw serial writer
`send_serial_raw` with its lock-retry helper `_acquire_lock`, and the
command channel (`try_http_targets`, `try_all_targets`, `set_lock_mode`,
`send_reboot`).

Effectful Python code is modelled as pure Lean functions over an explicit
environment describing the outcomes of the I/O steps (does the device
path exist, which step raises, what the debounce file holds when
re-read, what each HTTP target answers).  Each modelled function also
returns the ordered trace of externally visible events it performs, so
that claims about locking discipline, fallback writes and absence of
I/O can be stated as properties of the trace.
-/

namespace Vibemon

/-- Constant `SERIAL_DEBOUNCE_MS = 100` from the configuration block. -/
def SERIAL_DEBOUNCE_MS : Nat := 100

/-- Constant `SERIAL_LOCK_MAX_RETRIES = 10` from the configuration block. -/
def SERIAL_LOCK_MAX_RETRIES : Nat := 10

/-- The debounce file content `{"id": my_id, "data": data, "time": time.time()}`
written by `send_serial`.  The timestamp only ever flows through the file,
it is never compared, so it is modelled as a `Nat`. -/
structure DebounceRecord where
  id : String
  data : String
  time : Nat
deriving Repr, DecidableEq

/-- Externally visible events of one `send_serial` run, in program order:
operations on the debounce ("metadata") lock file, the debounce record
file, the debounce sleep, and invocations of `send_serial_raw`. -/
inductive Ev where
  | openDLock : Ev
  | lockDLock : Ev
  | unlockDLock : Ev
  | closeDLock : Ev
  | writeRecord : DebounceRecord → Ev
  | sleepDebounce : Ev
  | readRecord : DebounceRecord → Ev
  | rawSend : String → Ev
deriving Repr, DecidableEq

/-- Which fallible step of `send_serial`, if any, raises
`IOError / OSError / JSONDecodeError`.  The names follow the statements of
the Python function in order. -/
inductive ErrStep where
  | none      : ErrStep  -- no exception anywhere
  | openLock1 : ErrStep  -- first `os.open(lock_path, ...)` raises
  | flock1    : ErrStep  -- first `fcntl.flock(..., LOCK_EX)` raises
  | writeFile : ErrStep  -- `open(debounce_path, "w")` / `json.dump` raises
  | unlock1   : ErrStep  -- `fcntl.flock(..., LOCK_UN)` in the first finally raises
  | openLock2 : ErrStep  -- second `os.open(lock_path, ...)` raises
  | flock2    : ErrStep  -- second `fcntl.flock(..., LOCK_EX)` raises
  | readFile  : ErrStep  -- `open(debounce_path)` / `json.load` raises
deriving Repr, DecidableEq

/-- Environment of one `send_serial` call: whether `os.path.exists(port)`
holds, which step (if any) raises, and the record found in the debounce
file when it is re-read after the sleep (other processes may have
overwritten it in the meantime). -/
structure SerialEnv where
  portExists : Bool
  errStep : ErrStep
  recordRead : DebounceRecord
deriving Repr

/-- Trace of the events performed before the exception when `errStep`
fires, mirroring where each statement sits relative to the
`try/finally` blocks of the Python code.  On `unlock1` the `LOCK_UN`
call itself raises, so `os.close` in the same `finally` is skipped and
the metadata lock is still held when the `except` handler runs; the
outer `finally` then closes the descriptor (which drops the lock). -/
def errEvents (myId data : String) (now : Nat) : ErrStep → List Ev
  | ErrStep.none      => []
  | ErrStep.openLock1 => []
  | ErrStep.flock1    => [Ev.openDLock]
  | ErrStep.writeFile => [Ev.openDLock, Ev.lockDLock, Ev.unlockDLock, Ev.closeDLock]
  | ErrStep.unlock1   => [Ev.openDLock, Ev.lockDLock, Ev.writeRecord ⟨myId, data, now⟩]
  | ErrStep.openLock2 => [Ev.openDLock, Ev.lockDLock, Ev.writeRecord ⟨myId, data, now⟩,
                          Ev.unlockDLock, Ev.closeDLock, Ev.sleepDebounce]
  | ErrStep.flock2    => [Ev.openDLock, Ev.lockDLock, Ev.writeRecord ⟨myId, data, now⟩,
                          Ev.unlockDLock, Ev.closeDLock, Ev.sleepDebounce, Ev.openDLock]
  | ErrStep.readFile  => [Ev.openDLock, Ev.lockDLock, Ev.writeRecord ⟨myId, data, now⟩,
                          Ev.unlockDLock, Ev.closeDLock, Ev.sleepDebounce, Ev.openDLock,
                          Ev.lockDLock, Ev.unlockDLock, Ev.closeDLock]

/-- Events of the outer `finally` that runs after the `except` handler
returned: it closes the descriptor if one is still open (the `unlock1`,
`flock2` and `openLock2`-after-open cases leave none open only when the
open itself failed). -/
def errCleanup : ErrStep → List Ev
  | ErrStep.unlock1 => [Ev.closeDLock]
  | ErrStep.flock2  => [Ev.closeDLock]
  | _ => []

/-- Shallow embedding of `send_serial(port, data)`.

`myId` is the fresh `uuid.uuid4()` of this call, `now` the `time.time()`
stamp, `rawResult d` the boolean outcome that `send_serial_raw(port, d)`
would produce in this world.  Returns the Python return value together
with the event trace.  Control flow mirrors the source:
missing port → `False` before anything else; any `IOError/OSError/
JSONDecodeError` falls back to `send_serial_raw(port, data)` with the
original payload; otherwise the record is re-read after the debounce
sleep and the call either defers (foreign token) or sends the record's
`data` field while the metadata lock is still held. -/
def send_serial (env : SerialEnv) (data myId : String) (now : Nat)
    (rawResult : String → Bool) : Bool × List Ev :=
  if !env.portExists then
    (false, [])
  else if env.errStep ≠ ErrStep.none then
    (rawResult data,
      errEvents myId data now env.errStep ++ [Ev.rawSend data] ++ errCleanup env.errStep)
  else
    let evs1 := [Ev.openDLock, Ev.lockDLock, Ev.writeRecord ⟨myId, data, now⟩,
                 Ev.unlockDLock, Ev.closeDLock, Ev.sleepDebounce,
                 Ev.openDLock, Ev.lockDLock, Ev.readRecord env.recordRead]
    if env.recordRead.id ≠ myId then
      (true, evs1 ++ [Ev.unlockDLock, Ev.closeDLock])
    else
      (rawResult env.recordRead.data,
        evs1 ++ [Ev.rawSend env.recordRead.data, Ev.unlockDLock, Ev.closeDLock])

/-- The payloads handed to `send_serial_raw`, in order, during one
`send_serial` run. -/
def rawSends : List Ev → List String
  | [] => []
  | Ev.rawSend d :: r => d :: rawSends r
  | _ :: r => rawSends r

/-- Is the metadata (debounce) lock held after this event prefix?
Acquiring sets it; both an explicit `LOCK_UN` and closing the descriptor
release it. -/
def dlockHeldAfter (evs : List Ev) : Bool :=
  evs.foldl (fun h e =>
    match e with
    | Ev.lockDLock => true
    | Ev.unlockDLock => false
    | Ev.closeDLock => false
    | _ => h) false

/-- Does some `rawSend` event occur at a point where the metadata lock is
held?  Scans the trace carrying the lock state. -/
def rawSendWhileLocked (held : Bool) : List Ev → Bool
  | [] => false
  | Ev.lockDLock :: r => rawSendWhileLocked true r
  | Ev.unlockDLock :: r => rawSendWhileLocked false r
  | Ev.closeDLock :: r => rawSendWhileLocked false r
  | Ev.rawSend _ :: r => held || rawSendWhileLocked held r
  | _ :: r => rawSendWhileLocked held r

/-! ### Raw serial writer: `_acquire_lock` and `send_serial_raw` -/

/-- Externally visible events of one `send_serial_raw` run: operations on
the device lock file, the `stty` reconfiguration, the device write, and
the sleeps of the retry/settle policy. -/
inductive REv where
  | openLockFile : REv
  | tryFlock : Nat → Bool → REv  -- attempt index, did LOCK_EX|LOCK_NB succeed
  | retrySleep : REv             -- time.sleep(SERIAL_LOCK_RETRY_INTERVAL) between attempts
  | sttyConfig : REv
  | writeDevice : String → REv
  | settleSleep : REv            -- post-write settle delay before releasing
  | unlockDevice : REv
  | closeLockFile : REv
deriving Repr, DecidableEq

/-- The retry loop of `_acquire_lock`: `for attempt in range(max_retries)`,
with `attempt` the current index and `rem` the number of attempts still
allowed after this one (so `attempt < max_retries - 1` is `rem ≠ 0`).
`flockOk i` says whether the non-blocking `fcntl.flock` succeeds on
attempt `i`; on failure the loop sleeps a fixed interval unless this was
the last attempt. -/
def acquireGo (flockOk : Nat → Bool) (attempt : Nat) : Nat → Bool × List REv
  | 0 => (false, [])
  | rem + 1 =>
    if flockOk attempt then
      (true, [REv.tryFlock attempt true])
    else
      let pre :=
        if rem = 0 then [REv.tryFlock attempt false]
        else [REv.tryFlock attempt false, REv.retrySleep]
      let rest := acquireGo flockOk (attempt + 1) rem
      (rest.1, pre ++ rest.2)

/-- Shallow embedding of `_acquire_lock(lock_fd, max_retries)`; the file
descriptor is implicit in `flockOk`. -/
def _acquire_lock (flockOk : Nat → Bool)
    (maxRetries : Nat := SERIAL_LOCK_MAX_RETRIES) : Bool × List REv :=
  acquireGo flockOk 0 maxRetries

/-- Environment of one `send_serial_raw` call: whether the device path
exists, whether `os.open` of the lock file raises, the outcome of each
flock attempt, and whether the device write inside the critical section
raises `IOError/OSError`. -/
structure RawEnv where
  portExists : Bool
  openErr : Bool
  flockOk : Nat → Bool
  writeErr : Bool

/-- Shallow embedding of `send_serial_raw(port, data)`.  Mirrors the
source: missing device → `False` with no lock-file activity; `os.open`
failure is caught and yields `False` with no descriptor to close; a lock
timeout returns `False` after the outer `finally` closes the descriptor;
an `IOError` in the critical section releases the lock in the inner
`finally`, returns `False`, and the descriptor is closed; on success the
data plus newline is written, the settle sleep runs, and lock release and
close follow. -/
def send_serial_raw (env : RawEnv) (data : String) : Bool × List REv :=
  if !env.portExists then
    (false, [])
  else if env.openErr then
    (false, [])
  else
    let acq := _acquire_lock env.flockOk
    if !acq.1 then
      (false, REv.openLockFile :: acq.2 ++ [REv.closeLockFile])
    else if env.writeErr then
      (false, REv.openLockFile :: acq.2 ++
        [REv.sttyConfig, REv.unlockDevice, REv.closeLockFile])
    else
      (true, REv.openLockFile :: acq.2 ++
        [REv.sttyConfig, REv.writeDevice data, REv.settleSleep,
         REv.unlockDevice, REv.closeLockFile])

/-- Is this raw-writer event a flock attempt? -/
def isFlockAttempt : REv → Bool
  | REv.tryFlock _ _ => true
  | _ => false

/-- Is this raw-writer event a fixed-interval retry sleep? -/
def isRetrySleep : REv → Bool
  | REv.retrySleep => true
  | _ => false

/-- Number of flock attempts in a raw-writer trace. -/
def countAttempts (evs : List REv) : Nat := evs.countP isFlockAttempt

/-- Number of fixed-interval retry sleeps in a raw-writer trace. -/
def countRetrySleeps (evs : List REv) : Nat := evs.countP isRetrySleep

/-! ### Serial port resolver -/

/-- Is `sub` a prefix of `s` (character lists)? -/
def isPrefixList : List Char → List Char → Bool
  | [], _ => true
  | _ :: _, [] => false
  | a :: as, b :: bs => a == b && isPrefixList as bs

/-- Does `sub` occur as a contiguous run inside `s`?  Models Python's
`sub in s` on strings. -/
def hasSubstr : List Char → List Char → Bool
  | [], sub => sub.isEmpty
  | c :: r, sub => isPrefixList sub (c :: r) || hasSubstr r sub

/-- Python `sub in s` for strings. -/
def strContains (s sub : String) : Bool := hasSubstr s.data sub.data

/-- Lexicographic `≤` on character lists, comparing code points — the
order Python uses on `str`. -/
def charListLe : List Char → List Char → Bool
  | [], _ => true
  | _ :: _, [] => false
  | a :: as, b :: bs =>
    if a < b then true
    else if b < a then false
    else charListLe as bs

/-- Lexicographic `≤` on strings, as Python compares `str` values. -/
def strLe (a b : String) : Bool := charListLe a.data b.data

/-- Model of Python `sorted` on a list of strings: stable insertion sort,
lexicographically ascending. -/
def sortStrings (l : List String) : List String :=
  List.insertionSort (fun a b => strLe a b = true) l

/-- Shallow embedding of `resolve_serial_port(port_pattern)`.  `globFn p`
is the list that `glob.glob(p)` returns in this world.  `None` and the
empty string are both falsy in Python, so both take the early
`return None`; a pattern containing `*` resolves to the first element of
the sorted glob matches, or `none` when there are none. -/
def resolve_serial_port (globFn : String → List String) :
    Option String → Option String
  | none => none
  | some p =>
    if p = "" then none
    else if strContains p "*" then
      match sortStrings (globFn p) with
      | [] => none
      | m :: _ => some m
    else
      some p

/-! ### Command channel: HTTP targets, serial fallback, commands -/

/-- Constant `ERR_NO_TARGET` from the configuration block. -/
def ERR_NO_TARGET : String :=
  "\x7b\"error\":\"No monitor target available. Set VIBEMON_HTTP_URLS or VIBEMON_SERIAL_PORT\"\x7d"

/-- Constant `ERR_NO_ESP32` from the configuration block. -/
def ERR_NO_ESP32 : String :=
  "\x7b\"error\":\"No ESP32 target available. Set VIBEMON_HTTP_URLS (with ESP32 URL) or VIBEMON_SERIAL_PORT\"\x7d"

/-- Format `ERR_INVALID_MODE % mode`: the `%s` placeholder replaced by the mode. -/
def errInvalidMode (mode : String) : String :=
  "\x7b\"error\":\"Invalid mode: " ++ mode ++ ". Valid modes: first-project, on-thinking\"\x7d"

/-- Constant `VALID_LOCK_MODES = frozenset(["first-project", "on-thinking"])`. -/
def VALID_LOCK_MODES : List String := ["first-project", "on-thinking"]

/-- Predicate `is_localhost_url(url)`: `"127.0.0.1" in url or "localhost" in url`. -/
def is_localhost_url (url : String) : Bool :=
  strContains url "127.0.0.1" || strContains url "localhost"

/-- Configuration slice the command channel reads: `http_urls` in
configured order and the raw `serial_port` pattern. -/
structure Config where
  http_urls : List String
  serial_port : Option String

/-- Environment for the command channel: what each HTTP request
`(url, endpoint, data, method)` would answer, what `glob.glob` returns,
and whether `send_serial(port, data)` would succeed. -/
structure NetEnv where
  httpResult : String → String → Option String → String → Bool × Option String
  globFn : String → List String
  serialSend : String → String → Bool

/-- The loop body of `try_http_targets`: walk the configured URLs in
order, skipping localhost ones when `include_localhost` is false, and
stop at the first success.  Besides the `(success, result)` pair it
returns the list of URLs actually contacted. -/
def tryHttpLoop (env : NetEnv) (endpoint : String) (data : Option String)
    (method : String) (include_localhost : Bool) :
    List String → (Bool × Option String) × List String
  | [] => ((false, none), [])
  | u :: rest =>
    if !include_localhost && is_localhost_url u then
      tryHttpLoop env endpoint data method include_localhost rest
    else
      let r := env.httpResult u endpoint data method
      if r.1 then
        ((true, r.2), [u])
      else
        let out := tryHttpLoop env endpoint data method include_localhost rest
        (out.1, u :: out.2)

/-- Shallow embedding of `try_http_targets(endpoint, data, method,
include_localhost)`. -/
def try_http_targets (env : NetEnv) (cfg : Config) (endpoint : String)
    (data : Option String := none) (method : String := "POST")
    (include_localhost : Bool := true) : (Bool × Option String) × List String :=
  tryHttpLoop env endpoint data method include_localhost cfg.http_urls

/-- Shallow embedding of `try_serial_target(command_data)`: nothing
happens unless a serial port is configured and resolves; otherwise one
`send_serial` submission is made.  Also returns the list of
`(port, payload)` serial submissions performed. -/
def try_serial_target (env : NetEnv) (cfg : Config) (command_data : String) :
    (Bool × Option String) × List (String × String) :=
  match cfg.serial_port with
  | none => ((false, none), [])
  | some sp =>
    if sp = "" then ((false, none), [])
    else
      match resolve_serial_port env.globFn (some sp) with
      | none => ((false, none), [])
      | some port =>
        if env.serialSend port command_data then
          ((true, some port), [(port, command_data)])
        else
          ((false, none), [(port, command_data)])

/-- Outcome of a command-channel operation: the returned boolean, the
lines printed to stdout, the HTTP URLs contacted and the serial
submissions made. -/
structure CmdOut where
  ok : Bool
  printed : List String
  httpAttempts : List String
  serialAttempts : List (String × String)
deriving Repr, DecidableEq

/-- Shallow embedding of `try_all_targets(endpoint, http_data,
serial_command, include_localhost)`: HTTP targets first, serial as
fallback; a serial success carries no response text. -/
def try_all_targets (env : NetEnv) (cfg : Config) (endpoint : String)
    (http_data : Option String) (serial_command : String)
    (include_localhost : Bool := true) :
    (Bool × Option String) × List String × List (String × String) :=
  let http := try_http_targets env cfg endpoint http_data "POST" include_localhost
  if http.1.1 then
    ((true, http.1.2), http.2, [])
  else
    let serial := try_serial_target env cfg serial_command
    if serial.1.1 then
      ((true, none), http.2, serial.2)
    else
      ((false, none), http.2, serial.2)

/-- Model of `_print_result(result, fallback)`: Python prints the fallback when
the result is `None` or empty (both falsy). -/
def printResult (result : Option String) (fallback : String) : String :=
  match result with
  | some s => if s = "" then fallback else s
  | none => fallback

/-- Result of `json.dumps({"command": "reboot"})`. -/
def rebootSerialData : String := "\x7b\"command\": \"reboot\"\x7d"

/-- Shallow embedding of `send_reboot()`: tries all targets on
`/reboot` with `include_localhost=False` and prints either the result
(or a success fallback) or `ERR_NO_ESP32`. -/
def send_reboot (env : NetEnv) (cfg : Config) : CmdOut :=
  let r := try_all_targets env cfg "/reboot" none rebootSerialData false
  if r.1.1 then
    { ok := true,
      printed := [printResult r.1.2 "\x7b\"success\":true,\"rebooting\":true\x7d"],
      httpAttempts := r.2.1, serialAttempts := r.2.2 }
  else
    { ok := false, printed := [ERR_NO_ESP32],
      httpAttempts := r.2.1, serialAttempts := r.2.2 }

/-- Result of `json.dumps({"mode": mode})`. -/
def lockModeHttpData (mode : String) : String :=
  "\x7b\"mode\": \"" ++ mode ++ "\"\x7d"

/-- Result of `json.dumps({"command": "lock-mode", "mode": mode})`. -/
def lockModeSerialData (mode : String) : String :=
  "\x7b\"command\": \"lock-mode\", \"mode\": \"" ++ mode ++ "\"\x7d"

/-- Shallow embedding of `set_lock_mode(mode)`: an invalid mode prints
the structured error and returns `False` before any target is touched;
a valid one goes through `try_all_targets` on `/lock-mode`. -/
def set_lock_mode (env : NetEnv) (cfg : Config) (mode : String) : CmdOut :=
  if mode ∉ VALID_LOCK_MODES then
    { ok := false, printed := [errInvalidMode mode],
      httpAttempts := [], serialAttempts := [] }
  else
    let r := try_all_targets env cfg "/lock-mode" (some (lockModeHttpData mode))
      (lockModeSerialData mode) true
    if r.1.1 then
      { ok := true,
        printed := [printResult r.1.2
          ("\x7b\"success\":true,\"lockMode\":\"" ++ mode ++ "\"\x7d")],
        httpAttempts := r.2.1, serialAttempts := r.2.2 }
    else
      { ok := false, printed := [ERR_NO_TARGET],
        httpAttempts := r.2.1, serialAttempts := r.2.2 }

/-! ### Cross-process debounce model

`N` independent processes run `send_serial` against the same device.
The metadata lock totally orders the debounce-record writes, so each
submission gets a distinct write time `tWrite`; its re-read happens a
debounce interval `D` later, at `tWrite + D`.  The record a process
finds at its re-read is the one with the greatest write time so far.
Each process then behaves exactly as the single-process `send_serial`
embedding does on that record. -/

/-- One concurrent submission: its fresh token (`uuid4`), the payload,
and the instant its debounce-record write lands (serialized by the
metadata lock). -/
structure Submission where
  token : String
  data : String
  tWrite : Nat
deriving Repr, DecidableEq

/-- Of two submissions, the one whose record write happened later. -/
def laterOf (a b : Submission) : Submission :=
  if a.tWrite < b.tWrite then b else a

/-- The submission whose record write happened last among `subs` —
its record is the one left in the debounce file. -/
def latestRecord (subs : List Submission) : Option Submission :=
  subs.foldl (fun acc s =>
    match acc with
    | none => some s
    | some a => some (laterOf a s)) none

/-- The content of the debounce record at instant `t`: the submission
with the greatest write time `≤ t`. -/
def recordAt (subs : List Submission) (t : Nat) : Option Submission :=
  latestRecord (subs.filter (fun s => s.tWrite ≤ t))

/-- The `DebounceRecord` a submission leaves in the debounce file. -/
def subRecord (s : Submission) : DebounceRecord := ⟨s.token, s.data, s.tWrite⟩

/-- The `send_serial` run of one of the concurrent submissions: the
device exists, no step raises, and the record re-read after the sleep is
whatever `recordAt` yields at this process's re-read instant. -/
def coordinatorRun (subs : List Submission) (D : Nat) (s : Submission) : Bool × List Ev :=
  send_serial ⟨true, ErrStep.none, subRecord ((recordAt subs (s.tWrite + D)).getD s)⟩
    s.data s.token s.tWrite (fun _ => true)

/-- All payloads physically written to the device across the `N`
concurrent runs, gathered from the `rawSend` events of each trace. -/
def physicalPayloads (subs : List Submission) (D : Nat) : List String :=
  (subs.map (fun s => rawSends (coordinatorRun subs D s).2)).flatten

/-! ### Claim theorems -/

/-- C10: for every device path that does not exist on the filesystem,
`send_serial` returns `False` immediately at its entry: the trace is
empty, so no token is used, no debounce record is written, the metadata
lock is never acquired, and the debounce sleep never happens. -/
theorem C10_send_serial_missing_port (env : SerialEnv) (data myId : String)
    (now : Nat) (raw : String → Bool) (h : env.portExists = false) :
    send_serial env data myId now raw = (false, []) := by
  simp [send_serial, h]

/-- Concrete instance of `C10_send_serial_missing_port`. -/
theorem C10_send_serial_missing_port_witness :
    send_serial ⟨false, ErrStep.none, ⟨"", "", 0⟩⟩ "d" "t" 0 (fun _ => true)
      = (false, []) :=
  C10_send_serial_missing_port _ _ _ _ _ rfl

/-- C5: for every nonexistent device path, `send_serial_raw` returns
`False` with an empty trace: its device lock file is neither created nor
opened. -/
theorem C5_raw_missing_port (env : RawEnv) (data : String)
    (h : env.portExists = false) :
    send_serial_raw env data = (false, []) := by
  simp [send_serial_raw, h]

/-- Concrete instance of `C5_raw_missing_port`. -/
theorem C5_raw_missing_port_witness :
    send_serial_raw ⟨false, false, fun _ => true, false⟩ "d" = (false, []) :=
  C5_raw_missing_port _ _ rfl

/-- C2: after the debounce sleep, `send_serial` re-reads the record.  If
the stored token differs from this call's token it returns `True` and
never invokes the raw writer; if the stored token is its own it invokes
the raw writer exactly once, with the `data` field of the stored record
(not the original payload argument), and returns that writer's result. -/
theorem C2_debounce_decision (env : SerialEnv) (data myId : String) (now : Nat)
    (raw : String → Bool) (hp : env.portExists = true)
    (he : env.errStep = ErrStep.none) :
    (env.recordRead.id ≠ myId →
      (send_serial env data myId now raw).1 = true ∧
      rawSends (send_serial env data myId now raw).2 = []) ∧
    (env.recordRead.id = myId →
      (send_serial env data myId now raw).1 = raw env.recordRead.data ∧
      rawSends (send_serial env data myId now raw).2 = [env.recordRead.data]) := by
  constructor <;> intro h <;> simp [send_serial, hp, he, h, rawSends]

/-- Concrete instance of `C2_debounce_decision`: a foreign token defers
without any raw write. -/
theorem C2_debounce_decision_witness :
    (send_serial ⟨true, ErrStep.none, ⟨"other", "d2", 5⟩⟩ "d1" "me" 0
      (fun _ => false)).1 = true ∧
    rawSends (send_serial ⟨true, ErrStep.none, ⟨"other", "d2", 5⟩⟩ "d1" "me" 0
      (fun _ => false)).2 = [] :=
  (C2_debounce_decision _ "d1" "me" 0 _ rfl rfl).1 (by decide)

/-- C4: any filesystem or locking error at any step of `send_serial`
degrades to exactly one unconditional raw write of the original payload,
and the coordinator returns that writer's result. -/
theorem C4_error_fallback (env : SerialEnv) (data myId : String) (now : Nat)
    (raw : String → Bool) (hp : env.portExists = true)
    (he : env.errStep ≠ ErrStep.none) :
    (send_serial env data myId now raw).1 = raw data ∧
    rawSends (send_serial env data myId now raw).2 = [data] := by
  obtain ⟨pe, es, rr⟩ := env
  subst hp
  cases es <;> first
    | exact absurd rfl he
    | simp [send_serial, errEvents, errCleanup, rawSends]

/-- Concrete instance of `C4_error_fallback`: a failing re-read falls
back to one raw write of the original payload. -/
theorem C4_error_fallback_witness :
    (send_serial ⟨true, ErrStep.readFile, ⟨"x", "y", 3⟩⟩ "d1" "me" 0
      (fun _ => false)).1 = false ∧
    rawSends (send_serial ⟨true, ErrStep.readFile, ⟨"x", "y", 3⟩⟩ "d1" "me" 0
      (fun _ => false)).2 = ["d1"] :=
  C4_error_fallback _ "d1" "me" 0 _ rfl (by decide)

/-- C9: any mode outside `{first-project, on-thinking}` makes
`set_lock_mode` return `False` and print the structured invalid-mode
error, with no HTTP request and no serial submission at all. -/
theorem C9_invalid_mode (env : NetEnv) (cfg : Config) (mode : String)
    (h : mode ∉ VALID_LOCK_MODES) :
    set_lock_mode env cfg mode =
      { ok := false, printed := [errInvalidMode mode],
        httpAttempts := [], serialAttempts := [] } := by
  simp [set_lock_mode, h]

/-- Concrete instance of `C9_invalid_mode` at mode `"bogus"`, with a
configuration that has both an HTTP and a serial target and an
environment in which every request would succeed. -/
theorem C9_invalid_mode_witness :
    set_lock_mode ⟨fun _ _ _ _ => (true, some "ok"), fun _ => [], fun _ _ => true⟩
      ⟨["http://localhost:3000"], some "/dev/ttyUSB0"⟩ "bogus" =
      { ok := false, printed := [errInvalidMode "bogus"],
        httpAttempts := [], serialAttempts := [] } :=
  C9_invalid_mode _ _ _ (by decide)

/-- C3 (counterexample): the claim that the metadata lock is never held
while the raw writer runs is false.  In the error-free execution where
the re-read record still carries this call's token, `send_serial`
invokes `send_serial_raw` inside the locked section: the lock is
released only after the raw write returns. -/
theorem C3_counterexample :
    rawSendWhileLocked false
      (send_serial ⟨true, ErrStep.none, ⟨"me", "d2", 5⟩⟩ "d1" "me" 0
        (fun _ => true)).2 = true := by
  decide

/-- C3 (amended): on the path where the re-read token equals this call's
token, `send_serial` performs the raw write while the metadata lock is
held and releases the lock only afterwards — the full trace shows the
`rawSend` between the second `lockDLock` and its `unlockDLock`. -/
theorem C3_amended_lock_held (env : SerialEnv) (data myId : String) (now : Nat)
    (raw : String → Bool) (hp : env.portExists = true)
    (he : env.errStep = ErrStep.none) (hid : env.recordRead.id = myId) :
    (send_serial env data myId now raw).2 =
      [Ev.openDLock, Ev.lockDLock, Ev.writeRecord ⟨myId, data, now⟩,
       Ev.unlockDLock, Ev.closeDLock, Ev.sleepDebounce,
       Ev.openDLock, Ev.lockDLock, Ev.readRecord env.recordRead,
       Ev.rawSend env.recordRead.data, Ev.unlockDLock, Ev.closeDLock] ∧
    rawSendWhileLocked false (send_serial env data myId now raw).2 = true := by
  have ht : (send_serial env data myId now raw).2 =
      [Ev.openDLock, Ev.lockDLock, Ev.writeRecord ⟨myId, data, now⟩,
       Ev.unlockDLock, Ev.closeDLock, Ev.sleepDebounce,
       Ev.openDLock, Ev.lockDLock, Ev.readRecord env.recordRead,
       Ev.rawSend env.recordRead.data, Ev.unlockDLock, Ev.closeDLock] := by
    simp [send_serial, hp, he, hid]
  refine ⟨ht, ?_⟩
  rw [ht]
  simp [rawSendWhileLocked]

/-- Concrete instance of `C3_amended_lock_held`. -/
theorem C3_amended_lock_held_witness :
    (send_serial ⟨true, ErrStep.none, ⟨"me", "d2", 5⟩⟩ "d1" "me" 0
      (fun _ => true)).2 =
      [Ev.openDLock, Ev.lockDLock, Ev.writeRecord ⟨"me", "d1", 0⟩,
       Ev.unlockDLock, Ev.closeDLock, Ev.sleepDebounce,
       Ev.openDLock, Ev.lockDLock, Ev.readRecord ⟨"me", "d2", 5⟩,
       Ev.rawSend "d2", Ev.unlockDLock, Ev.closeDLock] ∧
    rawSendWhileLocked false
      (send_serial ⟨true, ErrStep.none, ⟨"me", "d2", 5⟩⟩ "d1" "me" 0
        (fun _ => true)).2 = true :=
  C3_amended_lock_held _ "d1" "me" 0 _ rfl rfl rfl

/-- Every URL contacted by the HTTP loop when `include_localhost` is
false is a non-localhost URL. -/
theorem tryHttpLoop_no_localhost (env : NetEnv) (endpoint : String)
    (data : Option String) (method : String) (urls : List String) :
    ∀ u ∈ (tryHttpLoop env endpoint data method false urls).2,
      is_localhost_url u = false := by
  induction urls with
  | nil => intro u hu; simp [tryHttpLoop] at hu
  | cons a rest ih =>
    intro u hu
    cases h : is_localhost_url a with
    | true =>
      simp [tryHttpLoop, h] at hu
      exact ih u hu
    | false =>
      cases hs : (env.httpResult a endpoint data method).1 with
      | true =>
        simp [tryHttpLoop, h, hs] at hu
        subst hu
        exact h
      | false =>
        simp [tryHttpLoop, h, hs] at hu
        rcases hu with rfl | hu
        · exact h
        · exact ih u hu

/-- C8: `send_reboot` never contacts a localhost (LocalDisplay) HTTP
target; and when the configuration holds only a localhost HTTP target
and no serial port, it returns `False` and prints the ESP32-specific
no-target error, having contacted nothing. -/
theorem C8_reboot_excludes_localhost :
    (∀ (env : NetEnv) (cfg : Config),
      ∀ u ∈ (send_reboot env cfg).httpAttempts, is_localhost_url u = false) ∧
    (∀ (env : NetEnv) (u : String), is_localhost_url u = true →
      send_reboot env ⟨[u], none⟩ =
        { ok := false, printed := [ERR_NO_ESP32],
          httpAttempts := [], serialAttempts := [] }) := by
  constructor
  · intro env cfg u hu
    have hh := tryHttpLoop_no_localhost env "/reboot" none "POST" cfg.http_urls
    unfold send_reboot try_all_targets try_http_targets at hu
    dsimp only at hu
    split at hu
    · exact hh u hu
    · split at hu <;> exact hh u hu
  · intro env u hu
    simp [send_reboot, try_all_targets, try_http_targets, tryHttpLoop,
      try_serial_target, hu]

/-- Concrete instance of `C8_reboot_excludes_localhost`: a configuration
whose only HTTP target is the local display. -/
theorem C8_reboot_excludes_localhost_witness :
    is_localhost_url "http://127.0.0.1:5173" = true ∧
    send_reboot ⟨fun _ _ _ _ => (true, some "ok"), fun _ => [], fun _ _ => true⟩
      ⟨["http://127.0.0.1:5173"], none⟩ =
      { ok := false, printed := [ERR_NO_ESP32],
        httpAttempts := [], serialAttempts := [] } :=
  ⟨by decide, C8_reboot_excludes_localhost.2 _ _ (by decide)⟩

/-- When every flock attempt fails, the retry loop starting at `attempt`
with `rem` attempts left returns `False` after exactly `rem` attempts
with a fixed-interval sleep between consecutive attempts (`rem - 1`
sleeps). -/
theorem acquireGo_all_fail (flockOk : Nat → Bool) (hf : ∀ i, flockOk i = false) :
    ∀ (rem att : Nat),
      (acquireGo flockOk att rem).1 = false ∧
      countAttempts (acquireGo flockOk att rem).2 = rem ∧
      countRetrySleeps (acquireGo flockOk att rem).2 = rem - 1 := by
  intro rem
  induction rem with
  | zero => intro att; simp [acquireGo, countAttempts, countRetrySleeps]
  | succ n ih =>
    intro att
    obtain ⟨h1, h2, h3⟩ := ih (att + 1)
    have hstep : acquireGo flockOk att (n + 1) =
        if flockOk att then (true, [REv.tryFlock att true])
        else
          ((acquireGo flockOk (att + 1) n).1,
            (if n = 0 then [REv.tryFlock att false]
             else [REv.tryFlock att false, REv.retrySleep]) ++
            (acquireGo flockOk (att + 1) n).2) := rfl
    rw [hstep, if_neg (by simp [hf att])]
    by_cases hn : n = 0
    · subst hn
      simp [acquireGo, countAttempts, countRetrySleeps,
        List.countP_cons, List.countP_append, isFlockAttempt, isRetrySleep]
    · rw [if_neg hn]
      refine ⟨h1, ?_, ?_⟩ <;>
        simp [countAttempts, countRetrySleeps, List.countP_append,
          List.countP_cons, List.countP_nil, isFlockAttempt, isRetrySleep] at h2 h3 ⊢ <;>
        omega

/-- The retry loop never makes more than `rem` flock attempts. -/
theorem acquireGo_attempts_le (flockOk : Nat → Bool) :
    ∀ (rem att : Nat), countAttempts (acquireGo flockOk att rem).2 ≤ rem := by
  intro rem
  induction rem with
  | zero => intro att; simp [acquireGo, countAttempts]
  | succ n ih =>
    intro att
    have h := ih (att + 1)
    have hstep : acquireGo flockOk att (n + 1) =
        if flockOk att then (true, [REv.tryFlock att true])
        else
          ((acquireGo flockOk (att + 1) n).1,
            (if n = 0 then [REv.tryFlock att false]
             else [REv.tryFlock att false, REv.retrySleep]) ++
            (acquireGo flockOk (att + 1) n).2) := rfl
    rw [hstep]
    by_cases ho : flockOk att
    · rw [if_pos ho]
      simp [countAttempts, List.countP_cons, isFlockAttempt]
    · rw [if_neg ho]
      by_cases hn : n = 0 <;>
        [rw [if_pos hn]; rw [if_neg hn]] <;>
        simp [countAttempts, List.countP_append, List.countP_cons,
          List.countP_nil, isFlockAttempt, isRetrySleep] at h ⊢ <;>
        omega

/-- The trace of `send_serial_raw` is either empty (missing device or a
failing `os.open`) or starts by opening the lock file and ends by
closing it. -/
theorem send_serial_raw_trace_shape (env : RawEnv) (data : String) :
    (send_serial_raw env data).2 = [] ∨
    ∃ l, (send_serial_raw env data).2 =
      (REv.openLockFile :: l) ++ [REv.closeLockFile] := by
  obtain ⟨pe, oe, fo, we⟩ := env
  cases pe
  · left; simp [send_serial_raw]
  · cases oe
    · cases hacq : (acquireGo fo 0 SERIAL_LOCK_MAX_RETRIES).1
      · right
        refine ⟨(acquireGo fo 0 SERIAL_LOCK_MAX_RETRIES).2, ?_⟩
        simp [send_serial_raw, _acquire_lock, hacq]
      · cases we
        · right
          refine ⟨(acquireGo fo 0 SERIAL_LOCK_MAX_RETRIES).2 ++
            [REv.sttyConfig, REv.writeDevice data, REv.settleSleep,
             REv.unlockDevice], ?_⟩
          simp [send_serial_raw, _acquire_lock, hacq]
        · right
          refine ⟨(acquireGo fo 0 SERIAL_LOCK_MAX_RETRIES).2 ++
            [REv.sttyConfig, REv.unlockDevice], ?_⟩
          simp [send_serial_raw, _acquire_lock, hacq]
    · left; simp [send_serial_raw]

/-- C6: the lock retry policy of the raw writer is bounded and safe:
the attempt count never exceeds `SERIAL_LOCK_MAX_RETRIES`; when every
attempt fails, `_acquire_lock` returns `False` after exactly
`SERIAL_LOCK_MAX_RETRIES` attempts with `SERIAL_LOCK_MAX_RETRIES - 1`
fixed-interval sleeps between them; `send_serial_raw` then returns
`False`; and whenever the lock file was opened, the very last event of
the raw writer's trace is the close of that descriptor — on the timeout
path as on every other. -/
theorem C6_lock_retry_policy :
    (∀ flockOk : Nat → Bool,
      countAttempts (_acquire_lock flockOk).2 ≤ SERIAL_LOCK_MAX_RETRIES) ∧
    (∀ flockOk : Nat → Bool, (∀ i, flockOk i = false) →
      (_acquire_lock flockOk).1 = false ∧
      countAttempts (_acquire_lock flockOk).2 = SERIAL_LOCK_MAX_RETRIES ∧
      countRetrySleeps (_acquire_lock flockOk).2 = SERIAL_LOCK_MAX_RETRIES - 1) ∧
    (∀ (env : RawEnv) (data : String),
      env.portExists = true → env.openErr = false → (∀ i, env.flockOk i = false) →
      (send_serial_raw env data).1 = false ∧
      (send_serial_raw env data).2.getLast? = some REv.closeLockFile) ∧
    (∀ (env : RawEnv) (data : String),
      REv.openLockFile ∈ (send_serial_raw env data).2 →
      (send_serial_raw env data).2.getLast? = some REv.closeLockFile) := by
  refine ⟨?_, ?_, ?_, ?_⟩
  · intro flockOk
    exact acquireGo_attempts_le flockOk SERIAL_LOCK_MAX_RETRIES 0
  · intro flockOk hf
    exact acquireGo_all_fail flockOk hf SERIAL_LOCK_MAX_RETRIES 0
  · intro env data hp ho hf
    have hacq := (acquireGo_all_fail env.flockOk hf SERIAL_LOCK_MAX_RETRIES 0).1
    have h1 : (send_serial_raw env data).1 = false := by
      simp [send_serial_raw, hp, ho, _acquire_lock, hacq]
    refine ⟨h1, ?_⟩
    rcases send_serial_raw_trace_shape env data with hs | ⟨l, hs⟩
    · exfalso
      simp [send_serial_raw, hp, ho, _acquire_lock, hacq] at hs
    · rw [hs, List.getLast?_concat]
  · intro env data h
    rcases send_serial_raw_trace_shape env data with hs | ⟨l, hs⟩
    · rw [hs] at h
      simp at h
    · rw [hs, List.getLast?_concat]

/-- Concrete instance of `C6_lock_retry_policy`: an always-contended
lock. -/
theorem C6_lock_retry_policy_witness :
    (_acquire_lock (fun _ => false)).1 = false ∧
    countAttempts (_acquire_lock (fun _ => false)).2 = SERIAL_LOCK_MAX_RETRIES ∧
    countRetrySleeps (_acquire_lock (fun _ => false)).2
      = SERIAL_LOCK_MAX_RETRIES - 1 ∧
    (send_serial_raw ⟨true, false, fun _ => false, false⟩ "d").1 = false ∧
    (send_serial_raw ⟨true, false, fun _ => false, false⟩ "d").2.getLast?
      = some REv.closeLockFile := by
  obtain ⟨h1, h2, h3⟩ := C6_lock_retry_policy.2.1 (fun _ => false) (fun _ => rfl)
  obtain ⟨h4, h5⟩ := C6_lock_retry_policy.2.2.1 ⟨true, false, fun _ => false, false⟩
    "d" rfl rfl (fun _ => rfl)
  exact ⟨h1, h2, h3, h4, h5⟩

/-- Relation `charListLe` is reflexive. -/
theorem charListLe_refl : ∀ l, charListLe l l = true
  | [] => rfl
  | a :: as => by simp [charListLe, charListLe_refl as]

/-- Relation `charListLe` is total. -/
theorem charListLe_total (a : List Char) :
    ∀ b, charListLe a b = true ∨ charListLe b a = true := by
  induction a with
  | nil => intro b; exact Or.inl rfl
  | cons x xs ih =>
    intro b
    cases b with
    | nil => exact Or.inr rfl
    | cons y ys =>
      rcases lt_trichotomy x y with h | h | h
      · exact Or.inl (by simp [charListLe, h])
      · subst h
        rcases ih ys with h' | h'
        · exact Or.inl (by simp [charListLe, h'])
        · exact Or.inr (by simp [charListLe, h'])
      · exact Or.inr (by simp [charListLe, h])

/-- Relation `charListLe` is transitive. -/
theorem charListLe_trans (a : List Char) :
    ∀ b c, charListLe a b = true → charListLe b c = true →
      charListLe a c = true := by
  induction a with
  | nil => intro b c _ _; rfl
  | cons x xs ih =>
    intro b c h1 h2
    cases b with
    | nil => simp [charListLe] at h1
    | cons y ys =>
      cases c with
      | nil => simp [charListLe] at h2
      | cons z zs =>
        simp only [charListLe] at h1 h2 ⊢
        rcases lt_trichotomy x y with hxy | hxy | hxy
        · rcases lt_trichotomy y z with hyz | hyz | hyz
          · simp [lt_trans hxy hyz]
          · subst hyz; simp [hxy]
          · simp [lt_asymm hyz, hyz] at h2
        · subst hxy
          simp [lt_self_iff_false] at h1
          rcases lt_trichotomy x z with hxz | hxz | hxz
          · simp [hxz]
          · subst hxz
            simp [lt_self_iff_false] at h2 ⊢
            exact ih ys zs h1 h2
          · simp [lt_asymm hxz, hxz] at h2
        · simp [lt_asymm hxy, hxy] at h1

instance : IsTotal String (fun a b => strLe a b = true) :=
  ⟨fun a b => charListLe_total a.data b.data⟩

instance : IsTrans String (fun a b => strLe a b = true) :=
  ⟨fun a b c => charListLe_trans a.data b.data c.data⟩

/-- The head of the sorted glob matches is a member and a lower bound of
the matches. -/
theorem sortStrings_head_min (l : List String) (r : String) (rest : List String)
    (h : sortStrings l = r :: rest) : r ∈ l ∧ ∀ m ∈ l, strLe r m = true := by
  have h' : List.insertionSort (fun a b : String => strLe a b = true) l
      = r :: rest := h
  have hs : List.Sorted (fun a b : String => strLe a b = true)
      (List.insertionSort (fun a b : String => strLe a b = true) l) :=
    List.sorted_insertionSort _ l
  rw [h'] at hs
  constructor
  · have hr : r ∈ List.insertionSort (fun a b : String => strLe a b = true) l := by
      rw [h']; exact List.mem_cons_self _ _
    exact (List.mem_insertionSort _).mp hr
  · intro m hm
    have hm' : m ∈ r :: rest := by
      rw [← h']; exact (List.mem_insertionSort _).mpr hm
    rcases List.mem_cons.mp hm' with rfl | hm'
    · exact charListLe_refl m.data
    · exact List.rel_of_sorted_cons hs m hm'

/-- C7 (counterexample): the claim quantifies over every pattern string,
but the empty pattern contains no wildcard and is still not returned
unchanged — Python's falsiness check makes `resolve_serial_port` return
`None` for it. -/
theorem C7_counterexample :
    strContains "" "*" = false ∧
    resolve_serial_port (fun _ => []) (some "") = none := by
  constructor <;> rfl

/-- C7 (amended): for every nonempty pattern without a wildcard the
resolver returns the pattern unchanged; a pattern with a wildcard
resolves to the lexicographically smallest glob match and to `none` when
nothing matches; on matches `["/dev/ttyUSB2", "/dev/ttyUSB0"]` it
returns `/dev/ttyUSB0`. -/
theorem C7_resolver :
    (∀ (globFn : String → List String) (p : String),
      p ≠ "" → strContains p "*" = false →
      resolve_serial_port globFn (some p) = some p) ∧
    (∀ (globFn : String → List String) (p : String), strContains p "*" = true →
      (globFn p = [] → resolve_serial_port globFn (some p) = none) ∧
      (globFn p ≠ [] → ∃ r, resolve_serial_port globFn (some p) = some r ∧
        r ∈ globFn p ∧ ∀ m ∈ globFn p, strLe r m = true)) ∧
    resolve_serial_port (fun _ => ["/dev/ttyUSB2", "/dev/ttyUSB0"])
      (some "/dev/ttyUSB*") = some "/dev/ttyUSB0" := by
  refine ⟨?_, ?_, ?_⟩
  · intro globFn p hne hw
    simp [resolve_serial_port, hne, hw]
  · intro globFn p hw
    have hne : p ≠ "" := by
      intro he
      subst he
      exact absurd hw (by decide)
    constructor
    · intro h0
      simp [resolve_serial_port, hne, hw, h0, sortStrings, List.insertionSort]
    · intro h0
      cases hg : sortStrings (globFn p) with
      | nil =>
        exfalso
        have hperm := List.perm_insertionSort
          (fun a b : String => strLe a b = true) (globFn p)
        have hg' : List.insertionSort
            (fun a b : String => strLe a b = true) (globFn p) = [] := hg
        rw [hg'] at hperm
        exact h0 hperm.symm.eq_nil
      | cons r rest =>
        obtain ⟨hrm, hrb⟩ := sortStrings_head_min (globFn p) r rest hg
        refine ⟨r, ?_, hrm, hrb⟩
        simp [resolve_serial_port, hne, hw, hg]
  · decide

/-- Concrete instances of `C7_resolver`: a plain port name resolves to
itself; a wildcard with no matches resolves to `none`. -/
theorem C7_resolver_witness :
    resolve_serial_port (fun _ => []) (some "/dev/ttyUSB0")
      = some "/dev/ttyUSB0" ∧
    resolve_serial_port (fun _ => ([] : List String)) (some "/dev/tty*") = none :=
  ⟨C7_resolver.1 _ _ (by decide) (by decide),
   (C7_resolver.2.1 _ _ (by decide)).1 rfl⟩

/-- The `foldl` that scans for the latest record, started on `some a`,
yields an element that is `a` or comes from the list and whose write
time bounds both `a`'s and every listed submission's. -/
theorem foldl_laterOf_spec (l : List Submission) (a : Submission) :
    ∃ m, l.foldl (fun acc s =>
        match acc with
        | none => some s
        | some x => some (laterOf x s)) (some a) = some m ∧
      (m = a ∨ m ∈ l) ∧ a.tWrite ≤ m.tWrite ∧ ∀ s ∈ l, s.tWrite ≤ m.tWrite := by
  induction l generalizing a with
  | nil => exact ⟨a, rfl, Or.inl rfl, le_refl _, by simp⟩
  | cons b t ih =>
    obtain ⟨m, hm, hmem, hle, hall⟩ := ih (laterOf a b)
    have hab : laterOf a b = a ∨ laterOf a b = b := by
      unfold laterOf; split
      · exact Or.inr rfl
      · exact Or.inl rfl
    have haw : a.tWrite ≤ (laterOf a b).tWrite := by
      unfold laterOf; split <;> omega
    have hbw : b.tWrite ≤ (laterOf a b).tWrite := by
      unfold laterOf; split <;> omega
    refine ⟨m, by simpa using hm, ?_, le_trans haw hle, ?_⟩
    · rcases hmem with rfl | h
      · rcases hab with h' | h'
        · exact Or.inl h'
        · exact Or.inr (by rw [h']; exact List.mem_cons_self _ _)
      · exact Or.inr (List.mem_cons_of_mem _ h)
    · intro s hs
      rcases List.mem_cons.mp hs with rfl | hs
      · exact le_trans hbw hle
      · exact hall s hs

/-- A nonempty submission list has a latest record, which is one of the
submissions and maximal in write time. -/
theorem latestRecord_spec (subs : List Submission) (hne : subs ≠ []) :
    ∃ m, latestRecord subs = some m ∧ m ∈ subs ∧
      ∀ s ∈ subs, s.tWrite ≤ m.tWrite := by
  cases subs with
  | nil => exact absurd rfl hne
  | cons x xs =>
    obtain ⟨m, hm, hmem, hle, hall⟩ := foldl_laterOf_spec xs x
    refine ⟨m, by simpa [latestRecord] using hm, ?_, ?_⟩
    · rcases hmem with rfl | h
      · exact List.mem_cons_self _ _
      · exact List.mem_cons_of_mem _ h
    · intro s hs
      rcases List.mem_cons.mp hs with rfl | hs
      · exact hle
      · exact hall s hs

/-- If `f` vanishes on every element of the list, the flattened map is
empty. -/
theorem flatten_map_eq_nil {α β : Type} (t : List β) (f : β → List α)
    (h : ∀ s ∈ t, f s = []) : (t.map f).flatten = [] := by
  induction t with
  | nil => simp
  | cons a t ih =>
    simp [h a (List.mem_cons_self _ _),
      ih (fun s hs => h s (List.mem_cons_of_mem _ hs))]

/-- In a duplicate-free list where `f` vanishes everywhere except at
`m`, the flattened map is exactly `f m`. -/
theorem flatten_map_eq_single {α β : Type} (l : List β) (f : β → List α)
    (m : β) (hnd : l.Nodup) (hm : m ∈ l)
    (hz : ∀ s ∈ l, s ≠ m → f s = []) : (l.map f).flatten = f m := by
  induction l with
  | nil => simp at hm
  | cons a t ih =>
    obtain ⟨hnotin, hndt⟩ := List.nodup_cons.mp hnd
    rcases List.mem_cons.mp hm with rfl | hmt
    · have hall : ∀ s ∈ t, f s = [] := fun s hs =>
        hz s (List.mem_cons_of_mem _ hs) (fun he => hnotin (he ▸ hs))
      simp [flatten_map_eq_nil t f hall]
    · have hne : a ≠ m := fun he => hnotin (he ▸ hmt)
      have hfa : f a = [] := hz a (List.mem_cons_self _ _) hne
      have hrec := ih hndt hmt
        (fun s hs hsne => hz s (List.mem_cons_of_mem _ hs) hsne)
      simp [hfa, hrec]

/-- C1: when all concurrent submissions to one device land within less
than the debounce window (every record write precedes every re-read),
have fresh distinct tokens, and are serialized by the metadata lock,
exactly one physical write happens across all their `send_serial` runs,
namely by the submission whose record was stored last, and the payload
written is that submission's data. -/
theorem C1_debounce_coalesces (subs : List Submission) (D : Nat)
    (hne : subs ≠ [])
    (hnd : (subs.map Submission.token).Nodup)
    (hwin : ∀ s ∈ subs, ∀ s' ∈ subs, s'.tWrite < s.tWrite + D) :
    ∃ m, latestRecord subs = some m ∧ m ∈ subs ∧
      (∀ s ∈ subs, s.tWrite ≤ m.tWrite) ∧
      (∀ s ∈ subs, rawSends (coordinatorRun subs D s).2 =
        if s = m then [m.data] else []) ∧
      physicalPayloads subs D = [m.data] := by
  obtain ⟨m, hm, hmem, hmax⟩ := latestRecord_spec subs hne
  have hrec : ∀ s ∈ subs, recordAt subs (s.tWrite + D) = some m := by
    intro s hs
    unfold recordAt
    have hfil : subs.filter (fun x => x.tWrite ≤ s.tWrite + D) = subs := by
      apply List.filter_eq_self.mpr
      intro x hx
      simpa using Nat.le_of_lt (hwin s hs x hx)
    rw [hfil, hm]
  have hrun : ∀ s ∈ subs, rawSends (coordinatorRun subs D s).2 =
      if s = m then [m.data] else [] := by
    intro s hs
    unfold coordinatorRun
    rw [hrec s hs]
    by_cases hsm : s = m
    · subst hsm
      simp [send_serial, subRecord, rawSends]
    · have htok : m.token ≠ s.token := fun he =>
        hsm (List.inj_on_of_nodup_map hnd hs hmem he.symm)
      simp [send_serial, subRecord, rawSends, hsm, htok]
  refine ⟨m, hm, hmem, hmax, hrun, ?_⟩
  have hnodup : subs.Nodup := List.Nodup.of_map _ hnd
  have hflat := flatten_map_eq_single subs
    (fun s => rawSends (coordinatorRun subs D s).2) m hnodup hmem
    (fun s hs hsne => by
      show rawSends (coordinatorRun subs D s).2 = []
      rw [hrun s hs]
      simp [hsne])
  unfold physicalPayloads
  rw [hflat]
  show rawSends (coordinatorRun subs D m).2 = [m.data]
  rw [hrun m hmem]
  simp

/-- Concrete instance of `C1_debounce_coalesces`: two submissions 50 time
units apart under a 100-unit window; only the later one's payload is
written, once. -/
theorem C1_debounce_coalesces_witness :
    physicalPayloads [⟨"t1", "a", 0⟩, ⟨"t2", "b", 50⟩] 100 = ["b"] := by
  obtain ⟨m, hm, -, -, -, hp⟩ :=
    C1_debounce_coalesces [⟨"t1", "a", 0⟩, ⟨"t2", "b", 50⟩] 100
      (by decide) (by decide) (by decide)
  have hm2 : latestRecord [⟨"t1", "a", 0⟩, ⟨"t2", "b", 50⟩]
      = some ⟨"t2", "b", 50⟩ := by decide
  rw [hm] at hm2
  obtain rfl := Option.some.inj hm2
  exact hp

end Vibemon
